import Mathlib

/-!
# SimpleNote — verification of the edit-history and refresh-scheduler core

Shallow embedding of the core logic of `SimpleNote.py` (class `TextEditor`):
the undo/redo snapshot stacks, the debounced line-number refresh, and the
autosave polling loop.

The Tk text widget is modelled by its user-visible content, a `String`
(what `text.get("1.0", "end-1c")` returns).  Per documented Tk semantics the
widget always holds one final newline beyond the user content, so
`text.get("1.0", tk.END)` returns the content followed by `"\n"`
(`textGetEnd` below), while `delete("1.0", tk.END)` followed by
`insert("1.0", s)` makes the user-visible content exactly `s`.
`messagebox.showinfo(title, msg)` calls are modelled as an appended
`(title, msg)` log entry.  File dialogs, file I/O, fonts, scrolling and
other presentation-only effects are not modelled.
-/

/-- `text.get("1.0", tk.END)`: the widget content plus Tk's phantom final
newline. -/
def textGetEnd (widget : String) : String := widget ++ "\n"

/-- The `TextEditor` state relevant to the undo/redo subsystem:
the text widget content, `self.undo_stack`, `self.redo_stack`,
`self.max_undo_stack_size`, and the log of `messagebox.showinfo` calls. -/
structure EditorState where
  widget : String
  undo_stack : List String
  redo_stack : List String
  max_undo_stack_size : Nat
  infos : List (String × String)
deriving DecidableEq

/-- The freshly constructed editor: empty widget, both stacks empty,
`max_undo_stack_size = 50`, no messages shown. -/
def initEditor : EditorState :=
  { widget := ""
    undo_stack := []
    redo_stack := []
    max_undo_stack_size := 50
    infos := [] }

/-- The external text-buffer mutation (spec §6 `setText` / user keystrokes):
replaces the widget content, touching nothing else. -/
def set_text (t : String) (s : EditorState) : EditorState :=
  { s with widget := t }

/-- `TextEditor._handle_undo_redo(stack_to_pop, stack_to_push)`:
if `stack_to_pop` is non-empty, read the current state with
`text.get("1.0", tk.END)`, append it to `stack_to_push`, pop the last
entry of `stack_to_pop`, and install it as the new widget content
(`delete("1.0", tk.END)` then `insert("1.0", new_state)`).
Returns (new widget content, new popped-from stack, new pushed-to stack).
The `edit_modified(False)` call is presentation-only and not modelled. -/
def handle_undo_redo (widget : String) (stack_to_pop stack_to_push : List String) :
    String × List String × List String :=
  match stack_to_pop.getLast? with
  | none => (widget, stack_to_pop, stack_to_push)
  | some new_state =>
      (new_state, stack_to_pop.dropLast, stack_to_push ++ [textGetEnd widget])

/-- `TextEditor.custom_undo`: if the undo stack is non-empty, delegate to
`_handle_undo_redo(undo_stack, redo_stack)`; otherwise show
"No further undo actions available.". -/
def custom_undo (s : EditorState) : EditorState :=
  if s.undo_stack ≠ [] then
    let r := handle_undo_redo s.widget s.undo_stack s.redo_stack
    { s with widget := r.1, undo_stack := r.2.1, redo_stack := r.2.2 }
  else
    { s with infos := s.infos ++ [("Undo", "No further undo actions available.")] }

/-- `TextEditor.custom_redo`: if the redo stack is non-empty, delegate to
`_handle_undo_redo(redo_stack, undo_stack)`; otherwise show
"No further redo actions available.". -/
def custom_redo (s : EditorState) : EditorState :=
  if s.redo_stack ≠ [] then
    let r := handle_undo_redo s.widget s.redo_stack s.undo_stack
    { s with widget := r.1, redo_stack := r.2.1, undo_stack := r.2.2 }
  else
    { s with infos := s.infos ++ [("Redo", "No further redo actions available.")] }

/-- `TextEditor.save_undo_state`: read the current state with
`text.get("1.0", tk.END)`; if the undo stack is empty or the current state
differs from its top (`undo_stack[-1]`), append it, drop the oldest entry
(`pop(0)`) when the length exceeds `max_undo_stack_size`, and clear the
redo stack.  Otherwise return without mutating anything.
(The Python guard `not self.undo_stack or current_state != self.undo_stack[-1]`
is exactly `undo_stack.getLast? ≠ some current_state`.) -/
def save_undo_state (s : EditorState) : EditorState :=
  let current_state := textGetEnd s.widget
  if s.undo_stack.getLast? = some current_state then s
  else
    let pushed := s.undo_stack ++ [current_state]
    { s with
      undo_stack := if pushed.length > s.max_undo_stack_size then pushed.tail else pushed
      redo_stack := [] }

/-- `TextEditor.clear_undo_redo`: clear both stacks and show
"Undo/Redo history has been cleared.". -/
def clear_undo_redo (s : EditorState) : EditorState :=
  { s with
    undo_stack := []
    redo_stack := []
    infos := s.infos ++ [("Undo/Redo", "Undo/Redo history has been cleared.")] }

/-- A sequence of `recordState` calls: for each text in turn, the buffer is
edited to that text and `save_undo_state` is invoked. -/
def recordAll (s : EditorState) (ts : List String) : EditorState :=
  ts.foldl (fun acc t => save_undo_state (set_text t acc)) s

/-- The operations of the undo/redo subsystem, plus the external buffer
edit, for reasoning about arbitrary operation sequences. -/
inductive EditorOp where
  | record : EditorOp
  | undo : EditorOp
  | redo : EditorOp
  | clear : EditorOp
  | edit : String → EditorOp

/-- Apply one operation to the editor state. -/
def applyOp (s : EditorState) : EditorOp → EditorState
  | EditorOp.record => save_undo_state s
  | EditorOp.undo => custom_undo s
  | EditorOp.redo => custom_redo s
  | EditorOp.clear => clear_undo_redo s
  | EditorOp.edit t => set_text t s

/-- Run a sequence of operations from the freshly constructed editor. -/
def runOps (ops : List EditorOp) : EditorState := ops.foldl applyOp initEditor

/-!
## Line-number refresh (debounce) and autosave
-/

/-- Python's whitespace set for `str.strip()`: space, tab, newline, carriage
return, vertical tab, form feed. -/
def pyWhitespace (c : Char) : Bool :=
  c == ' ' || c == '\t' || c == '\n' || c == '\r' || c.toNat == 11 || c.toNat == 12

/-- Python `str.strip()`: remove leading and trailing whitespace. -/
def pyStrip (s : String) : String :=
  String.mk (((s.data.dropWhile pyWhitespace).reverse.dropWhile pyWhitespace).reverse)

/-- Python `str.count(c)` for a single character `c`: the number of
occurrences of `c` in the string. -/
def countChar (c : Char) (s : String) : Nat := s.data.count c

/-- The line-count computation inside `TextEditor.update_line_numbers`:
`content = self.text.get("1.0", tk.END).strip()` followed by
`line_count = content.count('\n') + 1 if content else 1`. -/
def update_line_count (widget : String) : Nat :=
  let content := pyStrip (textGetEnd widget)
  if content = "" then 1 else countChar '\n' content + 1

/-- Modelled from the spec: the spec's stated formula for the displayed line
count — "count is `newline_count + 1`, minimum 1 for empty content", taken
over the buffer content (the minimum is automatic since
`newline_count + 1 ≥ 1`). -/
def spec_line_count (content : String) : Nat := countChar '\n' content + 1

/-- The `TextEditor` state relevant to the debounced line-number refresh:
the widget content, the line-number bar (as the list of displayed numbers),
`self.update_line_number_scheduled`, and the number of callbacks registered
via `master.after` that have not yet fired. -/
structure RefreshState where
  widget : String
  line_number_bar : List Nat
  update_line_number_scheduled : Bool
  after_queue : Nat
deriving DecidableEq

/-- `TextEditor.delayed_update_line_numbers`: only if no update is already
scheduled, set the flag and register `update_line_numbers` with
`master.after` (modelled by incrementing `after_queue`); otherwise do
nothing. -/
def delayed_update_line_numbers (s : RefreshState) : RefreshState :=
  if s.update_line_number_scheduled = false then
    { s with update_line_number_scheduled := true, after_queue := s.after_queue + 1 }
  else s

/-- `TextEditor.update_line_numbers`, as fired by the `master.after` timer
(consuming one queued callback): clear the line-number bar, recompute the
line count from `text.get("1.0", tk.END).strip()`, insert the numbers
`1..line_count`, and reset `update_line_number_scheduled` to `False`.
Scroll synchronisation and indentation drawing are presentation-only and
not modelled. -/
def update_line_numbers (s : RefreshState) : RefreshState :=
  { s with
    line_number_bar := List.range' 1 (update_line_count s.widget)
    update_line_number_scheduled := false
    after_queue := s.after_queue - 1 }

/-- The `TextEditor` state relevant to autosave: the widget content,
`self.last_content`, and a count of save (file-write) invocations. -/
structure SaveState where
  widget : String
  last_content : String
  saves : Nat
deriving DecidableEq

/-- `TextEditor.save`, success path (a file path is set and the write
succeeds; dialogs and I/O errors are external): writes
`self.text.get('1.0', 'end-1c')` — the widget content WITHOUT Tk's phantom
final newline — to the file and sets `self.last_content` to that content. -/
def save_file (s : SaveState) : SaveState :=
  let content := s.widget
  { s with last_content := content, saves := s.saves + 1 }

/-- `TextEditor.check_for_changes` (one autosave tick):
`current_content = self.text.get('1.0', tk.END)` — WITH the phantom final
newline; if it differs from `self.last_content`, call `self.save()` and then
set `self.last_content = current_content`.  The self-rescheduling
`master.after` call is the loop structure and not part of one tick. -/
def check_for_changes (s : SaveState) : SaveState :=
  let current_content := textGetEnd s.widget
  if current_content ≠ s.last_content then
    let after_save := save_file s
    { after_save with last_content := current_content }
  else s

/-- Executable check that consecutive entries of a list are pairwise
distinct. -/
def consecutiveDistinct : List String → Bool
  | [] => true
  | [_] => true
  | a :: b :: rest => a != b && consecutiveDistinct (b :: rest)

/-- 51 pairwise-distinct texts (`"a"`, `"aa"`, …), used to exercise the
capacity bound. -/
def ts51 : List String := (List.range 51).map (fun n => String.mk (List.replicate (n + 1) 'a'))

/-!
## Helper lemmas
-/

theorem consecutiveDistinct_iff_chain' :
    ∀ l : List String, consecutiveDistinct l = true ↔ l.Chain' (· ≠ ·)
  | [] => by simp [consecutiveDistinct]
  | [a] => by simp [consecutiveDistinct]
  | a :: b :: rest => by
    rw [consecutiveDistinct, List.chain'_cons, Bool.and_eq_true,
      consecutiveDistinct_iff_chain' (b :: rest), bne_iff_ne]

theorem textGetEnd_injective {a b : String} (h : textGetEnd a = textGetEnd b) : a = b := by
  have hd : a.data ++ "\n".data = b.data ++ "\n".data := by
    have := congrArg String.data h
    simpa [textGetEnd, String.data_append] using this
  exact String.ext (List.append_cancel_right hd)

theorem save_undo_state_widget (s : EditorState) :
    (save_undo_state s).widget = s.widget := by
  unfold save_undo_state
  dsimp only
  split <;> rfl

theorem save_undo_state_max (s : EditorState) :
    (save_undo_state s).max_undo_stack_size = s.max_undo_stack_size := by
  unfold save_undo_state
  dsimp only
  split <;> rfl

theorem recordAll_append (s : EditorState) (ts : List String) (t : String) :
    recordAll s (ts ++ [t]) = save_undo_state (set_text t (recordAll s ts)) := by
  simp [recordAll, List.foldl_append]

theorem tail_append_singleton_of_ne_nil {α : Type} {l : List α} {x : α} (h : l ≠ []) :
    (l ++ [x]).tail = l.tail ++ [x] := by
  cases l with
  | nil => exact absurd rfl h
  | cons a as => rfl

theorem save_undo_state_of_top_eq {s : EditorState}
    (h : s.undo_stack.getLast? = some (textGetEnd s.widget)) : save_undo_state s = s := by
  unfold save_undo_state
  dsimp only
  rw [if_pos h]

theorem save_undo_state_of_top_ne {s : EditorState}
    (h : s.undo_stack.getLast? ≠ some (textGetEnd s.widget)) :
    (save_undo_state s).undo_stack =
      (if (s.undo_stack ++ [textGetEnd s.widget]).length > s.max_undo_stack_size then
        (s.undo_stack ++ [textGetEnd s.widget]).tail
      else s.undo_stack ++ [textGetEnd s.widget]) ∧
    (save_undo_state s).redo_stack = [] := by
  unfold save_undo_state
  dsimp only
  rw [if_neg h]
  exact ⟨rfl, rfl⟩

theorem pyStrip_textGetEnd (s : String) : pyStrip (textGetEnd s) = pyStrip s := by
  unfold pyStrip textGetEnd
  have hdata : (s ++ "\n").data = s.data ++ ['\n'] := by
    rw [String.data_append]
  rw [hdata, List.dropWhile_append]
  by_cases h : (s.data.dropWhile pyWhitespace).isEmpty = true
  · rw [if_pos h]
    rw [List.isEmpty_iff] at h
    rw [h]
    rfl
  · rw [if_neg h]
    rw [List.reverse_append]
    have : (['\n'] : List Char).reverse = ['\n'] := rfl
    rw [this]
    have hpw : pyWhitespace '\n' = true := rfl
    simp [List.dropWhile_cons, hpw]

theorem recordAll_initEditor_spec (ts : List String) (h : ts.Chain' (· ≠ ·)) :
    (recordAll initEditor ts).undo_stack = (ts.map textGetEnd).drop (ts.length - 50) ∧
    (recordAll initEditor ts).widget = ts.getLast?.getD "" ∧
    (recordAll initEditor ts).max_undo_stack_size = 50 := by
  induction ts using List.reverseRecOn with
  | nil => exact ⟨rfl, rfl, rfl⟩
  | append_singleton l a ih =>
    rw [List.chain'_append] at h
    obtain ⟨h1, -, h3⟩ := h
    obtain ⟨hstack, hwidget, hmax⟩ := ih h1
    rw [recordAll_append]
    have hTundo : (set_text a (recordAll initEditor l)).undo_stack
        = (recordAll initEditor l).undo_stack := rfl
    have hTwidget : (set_text a (recordAll initEditor l)).widget = a := rfl
    have hTmax : (set_text a (recordAll initEditor l)).max_undo_stack_size = 50 := hmax
    -- the push condition holds: the top of the undo stack (if any) is the
    -- snapshot of the last recorded text, which differs from `a`
    have hpush : (set_text a (recordAll initEditor l)).undo_stack.getLast?
        ≠ some (textGetEnd (set_text a (recordAll initEditor l)).widget) := by
      rw [hTundo, hTwidget, hstack]
      cases hl : l.getLast? with
      | none =>
        have : l = [] := List.getLast?_eq_none_iff.mp hl
        subst this
        simp
      | some x =>
        have hlnil : l ≠ [] := by
          intro hc; subst hc; simp at hl
        have hxa : x ≠ a := h3 x (Option.mem_def.mpr hl) a (Option.mem_def.mpr rfl)
        have hpos : 0 < l.length := List.length_pos.mpr hlnil
        have hdnil : (l.map textGetEnd).drop (l.length - 50) ≠ [] := by
          intro hc
          have := congrArg List.length hc
          rw [List.length_drop, List.length_map] at this
          simp at this
          omega
        have hsplit : (l.map textGetEnd) =
            (l.map textGetEnd).take (l.length - 50) ++ (l.map textGetEnd).drop (l.length - 50) :=
          (List.take_append_drop _ _).symm
        have hgl : ((l.map textGetEnd).drop (l.length - 50)).getLast?
            = (l.map textGetEnd).getLast? := by
          conv_rhs => rw [hsplit]
          rw [List.getLast?_append_of_ne_nil _ hdnil]
        rw [hgl, List.getLast?_map, hl]
        intro hc
        exact hxa (textGetEnd_injective (Option.some.inj hc))
    obtain ⟨hres, -⟩ := save_undo_state_of_top_ne hpush
    refine ⟨?_, ?_, ?_⟩
    · rw [hres, hTundo, hTwidget, hTmax, hstack]
      simp only [List.map_append, List.length_append, List.map_singleton, List.length_singleton]
      have hDlen : (List.drop (l.length - 50) (List.map textGetEnd l)).length
          = l.length - (l.length - 50) := by
        rw [List.length_drop, List.length_map]
      by_cases hn : l.length < 50
      · rw [if_neg (by rw [hDlen]; omega)]
        have h0 : l.length - 50 = 0 := by omega
        have h0' : l.length + 1 - 50 = 0 := by omega
        rw [h0, h0', List.drop_zero, List.drop_zero]
      · have hD_ne : List.drop (l.length - 50) (List.map textGetEnd l) ≠ [] := by
          intro hc
          have hc' := congrArg List.length hc
          rw [hDlen] at hc'
          simp at hc'
          omega
        rw [if_pos (by rw [hDlen]; omega)]
        rw [tail_append_singleton_of_ne_nil hD_ne, List.tail_drop]
        rw [List.drop_append_of_le_length (by rw [List.length_map]; omega)]
        have heq : l.length - 50 + 1 = l.length + 1 - 50 := by omega
        rw [heq]
    · rw [save_undo_state_widget, hTwidget, List.getLast?_concat]
      rfl
    · rw [save_undo_state_max, hTmax]

/-!
## Claim theorems
-/

/-- C1: the undo/redo round-trip law fails on the code.  Record at buffer
`"a"`, edit the buffer to `"ab"`, undo, redo: the undo installs the stored
snapshot `"a\n"` (not the recorded buffer text `"a"`), and the redo leaves
the buffer at `"ab\n"`, not the text `"ab"` that was current at the time of
the undo call — each round trip appends one newline, because snapshots are
taken with `text.get("1.0", tk.END)` (which includes Tk's phantom final
newline) and reinstalled verbatim. -/
theorem undo_redo_round_trip_adds_newline :
    (set_text "ab" (save_undo_state (set_text "a" initEditor))).widget = "ab" ∧
    (custom_undo (set_text "ab" (save_undo_state (set_text "a" initEditor)))).widget = "a\n" ∧
    (custom_redo (custom_undo (set_text "ab" (save_undo_state (set_text "a" initEditor))))).widget
      = "ab\n" ∧
    ("ab\n" : String) ≠ "ab" := by decide

/-- C2: the spec's scenario fails on the code.  With undo stack
`["a", "ab"]` and buffer `"abc"`, undo does install `"ab"` and leave the
undo stack `["a"]`, but it pushes `"abc\n"` (the `text.get("1.0", tk.END)`
reading, with the phantom newline) onto the redo stack, not `"abc"`; the
following redo then installs `"abc\n"` and leaves the undo stack
`["a", "ab\n"]`. -/
theorem undo_scenario_pushes_phantom_newline :
    let s : EditorState :=
      { widget := "abc", undo_stack := ["a", "ab"], redo_stack := [],
        max_undo_stack_size := 50, infos := [] }
    (custom_undo s).widget = "ab" ∧
    (custom_undo s).undo_stack = ["a"] ∧
    (custom_undo s).redo_stack = ["abc\n"] ∧
    (["abc\n"] : List String) ≠ ["abc"] ∧
    (custom_redo (custom_undo s)).widget = "abc\n" ∧
    (custom_redo (custom_undo s)).undo_stack = ["a", "ab\n"] ∧
    (custom_redo (custom_undo s)).redo_stack = [] := by decide

/-- C3 counterexample: a `save_undo_state` call after which the redo stack
is NOT empty.  The pre-state is reached from the fresh editor by: edit to
`"a\n"`, record, edit to `"a"`, record, undo (which leaves the redo stack
`["a\n"]` and the widget at `"a\n"`); the final `save_undo_state` finds the
current state equal to the top of the undo stack, is a no-op, and leaves
the redo stack `["a\n"] ≠ []`. -/
theorem record_noop_preserves_redo :
    (save_undo_state (custom_undo (save_undo_state (set_text "a"
        (save_undo_state (set_text "a\n" initEditor)))))).redo_stack = ["a\n"] ∧
    (["a\n"] : List String) ≠ [] := by decide

/-- C3 amended: after every `save_undo_state` call that pushes — i.e. the
undo stack is empty or the current state `text.get("1.0", tk.END)` differs
from its top — the redo stack is empty; a call whose current state equals
the top is a no-op and leaves a non-empty redo stack unchanged. -/
theorem record_push_clears_redo (s : EditorState)
    (h : s.undo_stack.getLast? ≠ some (textGetEnd s.widget)) :
    (save_undo_state s).redo_stack = [] :=
  (save_undo_state_of_top_ne h).2

/-- C3 amended, witness: recording on the fresh editor (empty undo stack)
empties the redo stack. -/
theorem record_push_clears_redo_witness :
    (save_undo_state (set_text "a" initEditor)).redo_stack = [] :=
  record_push_clears_redo (set_text "a" initEditor) (by decide)

/-- C6: autosave's trigger condition is violated by the code.  A manual
`save` stores `text.get('1.0', 'end-1c')` (the buffer `"x"`, without the
phantom newline) as `last_content`, but the next `check_for_changes` tick
compares `text.get('1.0', tk.END)` (`"x\n"`) against it, so with the buffer
unchanged the tick still invokes a second save: a save is invoked although
the buffer content does not differ from the last-saved snapshot. -/
theorem manual_save_then_tick_saves_again :
    (save_file { widget := "x", last_content := "", saves := 0 }).last_content = "x" ∧
    (save_file { widget := "x", last_content := "", saves := 0 }).widget = "x" ∧
    (check_for_changes (save_file { widget := "x", last_content := "", saves := 0 })).saves
      = 2 := by decide

/-- C7 counterexample: for buffer content `"a\n"` the code displays 1 line
(it strips the retrieved text before counting), while the claim's formula
`newline_count + 1` gives 2. -/
theorem line_count_counterexample :
    update_line_count "a\n" = 1 ∧ spec_line_count "a\n" = 2 ∧
    update_line_count "a\n" ≠ spec_line_count "a\n" := by decide

/-- C7 amended: the displayed line count is the number of newline
characters in the buffer content after stripping leading and trailing
whitespace, plus one, and is 1 when the buffer is whitespace-only; Tk's
phantom final newline in `text.get("1.0", tk.END)` never affects the
count. -/
theorem update_line_count_amended (w : String) :
    update_line_count w = if pyStrip w = "" then 1 else spec_line_count (pyStrip w) := by
  unfold update_line_count spec_line_count
  dsimp only
  rw [pyStrip_textGetEnd]

/-- C8: calling undo with an empty undo stack, or redo with an empty redo
stack, shows an informational message and leaves the widget text and both
stacks unchanged. -/
theorem empty_history_error_atomic (s : EditorState) :
    (s.undo_stack = [] →
      (custom_undo s).widget = s.widget ∧
      (custom_undo s).undo_stack = [] ∧
      (custom_undo s).redo_stack = s.redo_stack ∧
      (custom_undo s).infos = s.infos ++ [("Undo", "No further undo actions available.")]) ∧
    (s.redo_stack = [] →
      (custom_redo s).widget = s.widget ∧
      (custom_redo s).undo_stack = s.undo_stack ∧
      (custom_redo s).redo_stack = [] ∧
      (custom_redo s).infos = s.infos ++ [("Redo", "No further redo actions available.")]) := by
  constructor
  · intro h
    simp [custom_undo, h]
  · intro h
    simp [custom_redo, h]

/-- C8 witness: undo on the fresh editor (both stacks empty, the state in
which a second undo finds itself after the only entry was consumed) leaves
the widget and the stacks unchanged and only reports the message. -/
theorem empty_history_error_atomic_witness :
    (custom_undo initEditor).widget = initEditor.widget ∧
    (custom_undo initEditor).undo_stack = [] ∧
    (custom_redo initEditor).redo_stack = [] ∧
    (custom_redo initEditor).undo_stack = initEditor.undo_stack := by
  have h := empty_history_error_atomic initEditor
  exact ⟨(h.1 rfl).1, (h.1 rfl).2.1, (h.2 rfl).2.2.1, (h.2 rfl).2.1⟩

/-- C9: recording the same state twice in a row.  If the current state is
not already the top of the undo stack and the stack is below capacity, the
first `save_undo_state` appends exactly one entry (the current
`text.get("1.0", tk.END)` reading) and the second call is a complete
no-op, so the pair of calls yields exactly one new entry. -/
theorem record_twice_single_entry (s : EditorState)
    (h1 : s.undo_stack.getLast? ≠ some (textGetEnd s.widget))
    (h2 : s.undo_stack.length < s.max_undo_stack_size) :
    (save_undo_state s).undo_stack = s.undo_stack ++ [textGetEnd s.widget] ∧
    save_undo_state (save_undo_state s) = save_undo_state s := by
  have hlen : ¬ (s.undo_stack ++ [textGetEnd s.widget]).length > s.max_undo_stack_size := by
    rw [List.length_append]
    simp only [List.length_cons, List.length_nil]
    omega
  have hstack : (save_undo_state s).undo_stack = s.undo_stack ++ [textGetEnd s.widget] := by
    rw [(save_undo_state_of_top_ne h1).1, if_neg hlen]
  refine ⟨hstack, save_undo_state_of_top_eq ?_⟩
  rw [hstack, save_undo_state_widget, List.getLast?_concat]

/-- C9 witness: on the fresh editor edited to `"hi"`, the first record
pushes `"hi\n"` and the second record changes nothing. -/
theorem record_twice_single_entry_witness :
    (save_undo_state (set_text "hi" initEditor)).undo_stack = ["hi\n"] ∧
    save_undo_state (save_undo_state (set_text "hi" initEditor))
      = save_undo_state (set_text "hi" initEditor) := by
  have h := record_twice_single_entry (set_text "hi" initEditor) (by decide) (by decide)
  exact ⟨h.1.trans (by decide), h.2⟩

/-- C5: debounce single-flight coalescing.  While an update is scheduled,
`delayed_update_line_numbers` is a complete no-op (it schedules nothing);
consequently, for every N ≥ 1, N notification calls from a quiescent state
(flag clear, no callback in flight) leave exactly one `update_line_numbers`
callback registered with `master.after` and the flag set; and every
`update_line_numbers` execution resets the flag to false. -/
theorem debounce_single_flight (s : RefreshState) (n : Nat) :
    (s.update_line_number_scheduled = true → delayed_update_line_numbers s = s) ∧
    (1 ≤ n → s.update_line_number_scheduled = false → s.after_queue = 0 →
      delayed_update_line_numbers^[n] s =
        { s with update_line_number_scheduled := true, after_queue := 1 }) ∧
    (∀ t : RefreshState, (update_line_numbers t).update_line_number_scheduled = false) := by
  refine ⟨?_, ?_, ?_⟩
  · intro h
    simp [delayed_update_line_numbers, h]
  · intro hn hflag hq
    obtain ⟨m, rfl⟩ : ∃ m, n = m + 1 := ⟨n - 1, by omega⟩
    rw [Function.iterate_succ_apply]
    have hfirst : delayed_update_line_numbers s =
        { s with update_line_number_scheduled := true, after_queue := 1 } := by
      simp [delayed_update_line_numbers, hflag, hq]
    rw [hfirst]
    exact Function.iterate_fixed (by simp [delayed_update_line_numbers]) m
  · intro t
    simp [update_line_numbers]

/-- C5 witness: three notification calls on the quiescent fresh state
register exactly one callback and set the flag; the refresh then clears
the flag. -/
theorem debounce_single_flight_witness :
    delayed_update_line_numbers^[3]
        { widget := "", line_number_bar := [], update_line_number_scheduled := false,
          after_queue := 0 } =
      { widget := "", line_number_bar := [], update_line_number_scheduled := true,
        after_queue := 1 } ∧
    (update_line_numbers
        { widget := "", line_number_bar := [], update_line_number_scheduled := true,
          after_queue := 1 }).update_line_number_scheduled = false := by
  have h := debounce_single_flight
    { widget := "", line_number_bar := [], update_line_number_scheduled := false,
      after_queue := 0 } 3
  exact ⟨h.2.1 (by omega) rfl rfl, h.2.2 _⟩

/-- C4: capacity bound with FIFO eviction.  For any sequence of more than
50 recordings with pairwise-distinct consecutive texts, starting from the
fresh editor (empty undo stack), the final undo stack is exactly the last
50 recorded snapshots in recording order (the oldest entries having been
dropped from the front), its length is 50, and after every prefix of the
sequence the length never exceeds 50. -/
theorem record_state_capacity_fifo (ts : List String)
    (hd : ts.Chain' (· ≠ ·)) (hlong : 50 < ts.length) :
    (recordAll initEditor ts).undo_stack = (ts.map textGetEnd).drop (ts.length - 50) ∧
    (recordAll initEditor ts).undo_stack.length = 50 ∧
    ∀ k : Nat, ((recordAll initEditor (ts.take k)).undo_stack).length ≤ 50 := by
  refine ⟨(recordAll_initEditor_spec ts hd).1, ?_, ?_⟩
  · rw [(recordAll_initEditor_spec ts hd).1, List.length_drop, List.length_map]
    omega
  · intro k
    rw [(recordAll_initEditor_spec (ts.take k) (hd.take k)).1,
      List.length_drop, List.length_map]
    omega

/-- C4 witness: 51 pairwise-distinct recordings leave an undo stack of
exactly 50 entries. -/
theorem record_state_capacity_fifo_witness :
    50 < ts51.length ∧ (recordAll initEditor ts51).undo_stack.length = 50 := by
  have h := record_state_capacity_fifo ts51
    ((consecutiveDistinct_iff_chain' ts51).mp (by decide)) (by decide)
  exact ⟨by decide, h.2.1⟩

theorem applyOp_capacity (op : EditorOp) (s : EditorState)
    (h : s.undo_stack.length + s.redo_stack.length ≤ s.max_undo_stack_size) :
    (applyOp s op).undo_stack.length + (applyOp s op).redo_stack.length
      ≤ (applyOp s op).max_undo_stack_size ∧
    (applyOp s op).max_undo_stack_size = s.max_undo_stack_size := by
  cases op with
  | record =>
    dsimp only [applyOp]
    by_cases hc : s.undo_stack.getLast? = some (textGetEnd s.widget)
    · rw [save_undo_state_of_top_eq hc]
      exact ⟨h, rfl⟩
    · obtain ⟨hu, hr⟩ := save_undo_state_of_top_ne hc
      rw [save_undo_state_max]
      refine ⟨?_, rfl⟩
      rw [hu, hr]
      simp only [List.length_nil, Nat.add_zero]
      by_cases hlen : (s.undo_stack ++ [textGetEnd s.widget]).length > s.max_undo_stack_size
      · rw [if_pos hlen, List.length_tail]
        rw [List.length_append, List.length_singleton] at hlen ⊢
        omega
      · rw [if_neg hlen]
        rw [List.length_append, List.length_singleton] at hlen ⊢
        omega
  | undo =>
    dsimp only [applyOp]
    unfold custom_undo
    by_cases hc : s.undo_stack ≠ []
    · rw [if_pos hc]
      have hpos : 0 < s.undo_stack.length := List.length_pos.mpr hc
      cases hgl : s.undo_stack.getLast? with
      | none => exact absurd (List.getLast?_eq_none_iff.mp hgl) hc
      | some x =>
        simp only [handle_undo_redo, hgl]
        refine ⟨?_, trivial⟩
        simp only [List.length_dropLast, List.length_append, List.length_singleton]
        omega
    · rw [if_neg hc]
      exact ⟨h, rfl⟩
  | redo =>
    dsimp only [applyOp]
    unfold custom_redo
    by_cases hc : s.redo_stack ≠ []
    · rw [if_pos hc]
      have hpos : 0 < s.redo_stack.length := List.length_pos.mpr hc
      cases hgl : s.redo_stack.getLast? with
      | none => exact absurd (List.getLast?_eq_none_iff.mp hgl) hc
      | some x =>
        simp only [handle_undo_redo, hgl]
        refine ⟨?_, trivial⟩
        simp only [List.length_dropLast, List.length_append, List.length_singleton]
        omega
    · rw [if_neg hc]
      exact ⟨h, rfl⟩
  | clear =>
    dsimp only [applyOp, clear_undo_redo]
    exact ⟨by simp, rfl⟩
  | edit t =>
    dsimp only [applyOp, set_text]
    exact ⟨h, rfl⟩

theorem runOps_capacity_aux (ops : List EditorOp) (s : EditorState)
    (h : s.undo_stack.length + s.redo_stack.length ≤ s.max_undo_stack_size) :
    (ops.foldl applyOp s).undo_stack.length + (ops.foldl applyOp s).redo_stack.length
      ≤ (ops.foldl applyOp s).max_undo_stack_size ∧
    (ops.foldl applyOp s).max_undo_stack_size = s.max_undo_stack_size := by
  induction ops generalizing s with
  | nil => exact ⟨h, rfl⟩
  | cons op rest ih =>
    simp only [List.foldl_cons]
    obtain ⟨h1, h2⟩ := applyOp_capacity op s h
    obtain ⟨h3, h4⟩ := ih (applyOp s op) h1
    exact ⟨h3, h4.trans h2⟩

/-- C10: combined capacity invariant.  Starting from the fresh editor
(both stacks empty), every sequence of `save_undo_state`, `custom_undo`,
`custom_redo`, `clear_undo_redo` (and interleaved buffer edits) keeps
`len(undo_stack) + len(redo_stack) ≤ 50`; in particular the redo stack
never exceeds 50 entries even though no eviction is ever applied to it,
because undo and redo each move exactly one snapshot between the stacks
and a pushing `save_undo_state` clears the redo stack. -/
theorem combined_stack_capacity (ops : List EditorOp) :
    (runOps ops).undo_stack.length + (runOps ops).redo_stack.length ≤ 50 ∧
    (runOps ops).redo_stack.length ≤ 50 := by
  have h := runOps_capacity_aux ops initEditor (by simp [initEditor])
  have h1 : (runOps ops).undo_stack.length + (runOps ops).redo_stack.length ≤ 50 := by
    have h2 := h.1
    rw [h.2] at h2
    exact h2
  exact ⟨h1, by omega⟩
